import Mathlib

/-!
Verification development for the storypilot core pipeline
(`storypilot_core.py`): scene splitting, image-to-scene mapping,
per-image duration allocation, segment plan building and the render
orchestration of `create_video_from_prompts`.

Modelling conventions:
* Python floats are modelled as rationals.
* External processes (ffmpeg segment render, concat, mux) and the
  external library word-wrapper (`textwrap.wrap`) are modelled as
  oracle parameters; a per-segment render either succeeds or fails
  according to a `renderOk` oracle on the segment output path.
* Python exceptions are modelled with `Except String`.
* `os.path.abspath` is modelled as the identity on the already
  rooted model paths, and the module level directory bootstrap is
  modelled by a fixed output directory name.
-/

namespace Storypilot

/-- Decidable equality of job outcomes, for evaluating the model on
concrete inputs. -/
instance {ε α : Type} [DecidableEq ε] [DecidableEq α] :
    DecidableEq (Except ε α) := fun x y =>
  match x, y with
  | Except.ok a, Except.ok b =>
    if h : a = b then isTrue (by rw [h])
    else isFalse (by intro hc; injection hc; contradiction)
  | Except.ok _, Except.error _ => isFalse (by intro hc; exact Except.noConfusion hc)
  | Except.error _, Except.ok _ => isFalse (by intro hc; exact Except.noConfusion hc)
  | Except.error e, Except.error f =>
    if h : e = f then isTrue (by rw [h])
    else isFalse (by intro hc; injection hc; contradiction)

/-- Whitespace characters recognised by the Python `str.strip` method
(ASCII range). -/
def pyWs (c : Char) : Bool :=
  c = ' ' || c = '\t' || c = '\n' || c = '\r' || c = '\x0b' || c = '\x0c'

/-- List level model of `str.strip`: drop whitespace from the front,
then from the back. -/
def pyStripList (l : List Char) : List Char :=
  ((l.dropWhile pyWs).reverse.dropWhile pyWs).reverse

/-- Model of the Python `str.strip` method. -/
def pyStrip (s : String) : String :=
  String.mk (pyStripList s.data)

/-- The delimiters of the scene split: newline or sentence period,
from the regex class used at line 55 of the source. -/
def isSplitDelim (c : Char) : Bool :=
  c = '\n' || c = '.'

/-- Splitting a character list at every delimiter character.  The
regex in the source collapses a run of delimiters, producing no empty
fragment inside a run; splitting at every single delimiter instead
produces extra empty fragments, and every such fragment is removed by
the non-blank filter that follows, so the surviving scenes coincide. -/
def splitChars : List Char → List (List Char)
  | [] => [[]]
  | c :: rest =>
    if isSplitDelim c then [] :: splitChars rest
    else
      match splitChars rest with
      | [] => [[c]]
      | f :: fs => (c :: f) :: fs

/-- The fragments of the story text between delimiter characters. -/
def storyFragments (story_text : String) : List String :=
  (splitChars story_text.data).map String.mk

/-- Line 55 of the source: keep the strip of every fragment that is
non-blank and whose raw (unstripped) length exceeds 5. -/
def sceneSplitStep (story_text : String) : List String :=
  (storyFragments story_text).filterMap fun s =>
    if pyStrip s ≠ "" ∧ s.length > 5 then some (pyStrip s) else none

/-- Lines 55 and 56 of the source: the split step, with the fallback
to a single scene holding the raw story text when the split step kept
nothing and the story is not blank. -/
def scenesOf (story_text : String) : List String :=
  let scenes := sceneSplitStep story_text
  if scenes.isEmpty then
    if pyStrip story_text ≠ "" then [story_text] else []
  else scenes

/-- Result record of `generate_prompts_from_story`. -/
structure AnalysisResult where
  scene_texts : List String
  copyable_prompts_text : String
  full_story_for_voice : String
  scene_count : Nat
deriving DecidableEq

/-- Prompt line built for one scene (line 63 of the source). -/
def promptTextOf (scene_text : String) : String :=
  "A cinematic 3D render of: " ++ scene_text.take 150

/-- Model of `generate_prompts_from_story` (lines 50 to 72). -/
def generate_prompts_from_story (story_text : String) : AnalysisResult :=
  let scenes := scenesOf story_text
  let copyable_lines :=
    (scenes.enumFrom 1).map fun p =>
      toString p.1 ++ ". " ++ promptTextOf p.2
  { scene_texts := scenes
    copyable_prompts_text := String.intercalate "\n" copyable_lines
    full_story_for_voice := String.intercalate ". " scenes
    scene_count := scenes.length }

/-- Model of `os.path.basename`: the part of the path after the last
separator, computed on the character list (the longest suffix free of
the separator). -/
def pyBasename (p : String) : String :=
  String.mk ((p.data.reverse.takeWhile fun c => c ≠ '/').reverse)

/-- Numeric value of a run of decimal digits, most significant first,
as computed by the Python `int` constructor on a digit string. -/
def digitsVal (l : List Char) : Nat :=
  l.foldl (fun n c => 10 * n + (c.toNat - 48)) 0

/-- The leading decimal digit run of a filename, as matched by the
regex of line 76 of the source; `none` when the name does not start
with a digit. -/
def leadingNumber (s : String) : Option Nat :=
  let d := s.data.takeWhile Char.isDigit
  if d.isEmpty then none else some (digitsVal d)

/-- Line 84 of the source: `math.ceil(file_number / 2)`.  On natural
numbers the ceiling of `n / 2` is `(n + 1) / 2` with truncating
division. -/
def sceneOfNat (n : Nat) : Nat := (n + 1) / 2

/-- The scene ordinal assigned to an image path, when its filename
carries a leading number. -/
def sceneKey (p : String) : Option Nat :=
  (leadingNumber (pyBasename p)).map sceneOfNat

/-- Appending a value to the entry of a key in an association list,
creating the entry at the tail when the key is absent.  This mirrors
the Python `defaultdict(list)` append: the position of a key is fixed
at its first insertion and later values are appended to its list. -/
def addToMap (k : Nat) (v : String) :
    List (Nat × List String) → List (Nat × List String)
  | [] => [(k, [v])]
  | (k2, vs) :: rest =>
    if k = k2 then (k2, vs ++ [v]) :: rest else (k2, vs) :: addToMap k v rest

/-- The accumulation loop of `map_images_by_prompt_number` (lines 78
to 87): files without a leading number are skipped, the others are
appended to the bucket of their scene ordinal. -/
def buildMap : List String → List (Nat × List String) → List (Nat × List String)
  | [], acc => acc
  | p :: rest, acc =>
    match sceneKey p with
    | some k => buildMap rest (addToMap k p acc)
    | none => buildMap rest acc

/-- Comparison of map entries by their key, as used by the Python
`sorted` over dict items (keys are pairwise distinct in a dict, so
comparing the keys decides the order). -/
def keyLE (a b : Nat × List String) : Prop := a.1 ≤ b.1

instance : DecidableRel keyLE := fun a b => Nat.decLe a.1 b.1

instance : IsTotal (Nat × List String) keyLE := ⟨fun a b => Nat.le_total a.1 b.1⟩

instance : IsTrans (Nat × List String) keyLE := ⟨fun _ _ _ => Nat.le_trans⟩

/-- Model of `sorted` over the items of the map (stable, by key). -/
def sortByKey (m : List (Nat × List String)) : List (Nat × List String) :=
  List.insertionSort keyLE m

/-- Model of `map_images_by_prompt_number` (lines 74 to 90). -/
def map_images_by_prompt_number (image_files : List String) :
    List (Nat × List String) :=
  sortByKey (buildMap image_files [])

/-- Lookup of the bucket of a key in an association list (the first
entry with that key). -/
def lookupKey (m : List (Nat × List String)) (k : Nat) : Option (List String) :=
  (m.find? fun e => e.1 == k).map Prod.snd

/-- The paths of the input that the mapper assigns to scene ordinal
`k`, in input order. -/
def bucketOf (files : List String) (k : Nat) : List String :=
  files.filter fun p => sceneKey p == some k

/-- Model of the output directory path; the real value is derived from
the module location at load time, which is environment dependent. -/
def OUTPUT_DIR : String := "output"

/-- A single quote character, as a string. -/
def sq : String := String.singleton (Char.ofNat 39)

/-- Message of the zero duration precondition failure (line 145). -/
def zeroDurationMsg : String :=
  "Audio duration is 0. Upload a voice file or set a Target Duration."

/-- Message of the empty map precondition failure (line 149). -/
def noPromptsMsg : String :=
  "No prompts with images found (Check image filenames)."

/-- Message of the Python IndexError raised by indexing a list out of
range. -/
def indexErrorMsg : String := "IndexError: list index out of range"

/-- Failure of the concatenation subprocess (line 246, not caught). -/
def concatErrorMsg : String := "CalledProcessError: concat"

/-- Failure of the audio mux subprocess (line 258, not caught). -/
def muxErrorMsg : String := "CalledProcessError: mux"

/-- Python list indexing with support for negative indices; `none`
models an IndexError. -/
def pyListGet (l : List String) (i : Int) : Option String :=
  if i < 0 then
    let j : Int := (l.length : Int) + i
    if j < 0 then none else l.get? j.toNat
  else l.get? i.toNat

/-- Lines 167 to 169 of the source: the scene text selected for the
caption of a scene.  The guard compares `prompt_num - 1` with the
caption count over the integers, so ordinal 0 yields index `-1`,
which Python resolves to the last entry when the list is non-empty
and raises an IndexError when it is empty. -/
def currentSceneText (prompt_num : Nat) (captions : List String) :
    Except String String :=
  if (prompt_num : Int) - 1 < (captions.length : Int) then
    match pyListGet captions ((prompt_num : Int) - 1) with
    | some s => Except.ok s
    | none => Except.error indexErrorMsg
  else Except.ok ""

/-- Replacement text for a single quote in the caption escape: quote,
backslash, quote, quote. -/
def sqEsc : String := sq ++ "\\" ++ sq ++ sq

/-- Replacement of every occurrence of one character by a character
sequence, the character-level reading of the Python `str.replace`
calls of line 172 (both patterns there are single characters). -/
def replaceChar (pat : Char) (rep : List Char) (l : List Char) : List Char :=
  l.foldr (fun c acc => (if c = pat then rep else [c]) ++ acc) []

/-- Lines 171 and 172 of the source: escape every single quote and
then every colon for the drawtext filter syntax.  The two passes are
performed in source order; the first pass introduces no colon and the
second no quote, so they do not interfere. -/
def escapeCaption (s : String) : String :=
  String.mk
    (replaceChar ':' ['\\', ':']
      (replaceChar (Char.ofNat 39) sqEsc.data s.data))

/-- Caption text of a scene given the external word wrapper: the
scene text wrapped at column width 40, joined and escaped. -/
def buildCaption (wrapFn : String → Nat → List String) (text : String) : String :=
  escapeCaption (String.intercalate "\n" (wrapFn text 40))

/-- Caption production for a scene ordinal: scene text selection
followed by wrapping and escaping. -/
def captionOf (wrapFn : String → Nat → List String) (prompt_num : Nat)
    (captions : List String) : Except String String :=
  (currentSceneText prompt_num captions).map (buildCaption wrapFn)

/-- Output path of the segment of image `j` of sorted scene `i`
(line 175 of the source). -/
def segPathOf (job_id : String) (i j : Nat) : String :=
  OUTPUT_DIR ++ "/" ++ job_id ++ "_seg_" ++ toString i ++ "_" ++ toString j ++ ".mp4"

/-- One renderable segment: the data of the per-image ffmpeg
invocation of lines 174 to 228 of the source.  `cmd_t` is the value
passed to the `-t` option of the render command. -/
structure SegmentSpec where
  scene_index : Nat
  image_index : Nat
  prompt_num : Nat
  num_images : Nat
  img_path : String
  duration : ℚ
  frames : Nat
  effect_cycle : Nat
  caption : String
  seg_path : String
  cmd_t : ℚ
deriving DecidableEq

/-- Order of plan positions: strictly ascending scene index, and
within one scene strictly ascending image index. -/
def segOrder (a b : Nat × Nat) : Prop :=
  a.1 < b.1 ∨ (a.1 = b.1 ∧ a.2 < b.2)

/-- A placeholder segment spec, used only to select elements of
concrete plans in closed statements. -/
def dfltSpec : SegmentSpec :=
  { scene_index := 0
    image_index := 0
    prompt_num := 0
    num_images := 0
    img_path := ""
    duration := 0
    frames := 0
    effect_cycle := 0
    caption := ""
    seg_path := ""
    cmd_t := 0 }

/-- The inner loop over the images of one scene (lines 174 to 228):
build the spec of every image and collect the output paths of the
renders that succeed under the oracle. -/
def renderSegments (renderOk : String → Bool) (job_id : String) (i : Nat)
    (prompt_num : Nat) (num_images : Nat) (dpi : ℚ) (caption : String) :
    List String → Nat → List SegmentSpec × List String
  | [], _ => ([], [])
  | img_path :: rest, j =>
    let seg_path := segPathOf job_id i j
    let spec : SegmentSpec :=
      { scene_index := i
        image_index := j
        prompt_num := prompt_num
        num_images := num_images
        img_path := img_path
        duration := dpi
        frames := (dpi * 30).floor.toNat + 1
        effect_cycle := (i * num_images + j) % 3
        caption := caption
        seg_path := seg_path
        cmd_t := dpi }
    let r := renderSegments renderOk job_id i prompt_num num_images dpi caption rest (j + 1)
    (spec :: r.1, if renderOk seg_path then seg_path :: r.2 else r.2)

/-- The outer loop over the sorted scene entries (lines 157 to 228).
The enumerate index `i` advances on every entry, also on entries whose
image list is empty (those are skipped by `continue` before any other
work).  The caption selection can raise, which aborts the whole job. -/
def processScenes (wrapFn : String → Nat → List String)
    (renderOk : String → Bool) (job_id : String) (captions : List String)
    (dpp : ℚ) :
    List (Nat × List String) → Nat → Except String (List SegmentSpec × List String)
  | [], _ => Except.ok ([], [])
  | (prompt_num, images) :: rest, i =>
    if images.isEmpty then
      processScenes wrapFn renderOk job_id captions dpp rest (i + 1)
    else
      let num_images := images.length
      if num_images = 0 then
        processScenes wrapFn renderOk job_id captions dpp rest (i + 1)
      else
        let dpi := max (1/2 : ℚ) (dpp / (num_images : ℚ))
        match currentSceneText prompt_num captions with
        | Except.error e => Except.error e
        | Except.ok text =>
          let caption := buildCaption wrapFn text
          let r := renderSegments renderOk job_id i prompt_num num_images dpi caption images 0
          match processScenes wrapFn renderOk job_id captions dpp rest (i + 1) with
          | Except.error e => Except.error e
          | Except.ok r2 => Except.ok (r.1 ++ r2.1, r.2 ++ r2.2)

/-- Lines 137 to 142 of the source: an explicit target duration in
minutes overrides probing the voice file, with Python truthiness, so
both a missing target and a zero target fall back to the probed voice
duration. -/
def resolveTotalDuration (target_duration_minutes : Option ℚ)
    (voice_duration : ℚ) : ℚ :=
  match target_duration_minutes with
  | some m => if m = 0 then voice_duration else m * 60
  | none => voice_duration

/-- Manifest line for one surviving segment (line 233 of the source):
the word `file`, a space, and the path wrapped in single quotes. -/
def manifestLine (p : String) : String := "file " ++ sq ++ p ++ sq

/-- Result of a completed job: the planned segment specs, the
manifest of the successfully rendered segment paths, the manifest
file lines, and the final output path. -/
structure JobResult where
  specs : List SegmentSpec
  manifest : List String
  manifest_lines : List String
  final_output_path : String
deriving DecidableEq

/-- Model of `create_video_from_prompts` (lines 126 to 268).  The
voice probe result, the word wrapper and the three kinds of external
invocation are oracle parameters; everything else follows the source:
precondition checks, per-scene duration allocation, segment planning
with per-segment failures dropped, manifest construction in plan
order, then the concatenation and mux steps whose failures abort. -/
def create_video_from_prompts (wrapFn : String → Nat → List String)
    (renderOk : String → Bool) (concatOk : Bool) (muxOk : Bool)
    (prompt_image_map : List (Nat × List String))
    (voice_duration : ℚ) (job_id : String)
    (target_duration_minutes : Option ℚ)
    (scene_texts_for_caption : List String) : Except String JobResult :=
  let total_duration_sec := resolveTotalDuration target_duration_minutes voice_duration
  if total_duration_sec = 0 then Except.error zeroDurationMsg
  else
    let num_prompts := prompt_image_map.length
    if num_prompts = 0 then Except.error noPromptsMsg
    else
      let duration_per_prompt := total_duration_sec / (num_prompts : ℚ)
      match processScenes wrapFn renderOk job_id scene_texts_for_caption
          duration_per_prompt (sortByKey prompt_image_map) 0 with
      | Except.error e => Except.error e
      | Except.ok r =>
        if !concatOk then Except.error concatErrorMsg
        else if !muxOk then Except.error muxErrorMsg
        else
          Except.ok
            { specs := r.1
              manifest := r.2
              manifest_lines := r.2.map manifestLine
              final_output_path := OUTPUT_DIR ++ "/final_video_" ++ job_id ++ ".mp4" }

/-- The planned segment specs of a job outcome; empty when the job
aborted. -/
def specsOf (x : Except String JobResult) : List SegmentSpec :=
  match x with
  | Except.ok r => r.specs
  | Except.error _ => []

/-- The manifest paths of a job outcome; empty when the job aborted. -/
def manifestOf (x : Except String JobResult) : List String :=
  match x with
  | Except.ok r => r.manifest
  | Except.error _ => []

/-- The manifest file lines of a job outcome. -/
def manifestLinesOf (x : Except String JobResult) : List String :=
  match x with
  | Except.ok r => r.manifest_lines
  | Except.error _ => []

/-- Whether the job ran to completion. -/
def jobCompleted (x : Except String JobResult) : Bool :=
  match x with
  | Except.ok _ => true
  | Except.error _ => false

/-- A trivial word wrapper, usable as a concrete oracle instance. -/
def wrapOne : String → Nat → List String := fun s _ => [s]

/-- The oracle under which every external render succeeds. -/
def allOk : String → Bool := fun _ => true

/-! ### Lemmas about the Python strip model -/

theorem pyStripList_eq_rdropWhile (l : List Char) :
    pyStripList l = List.rdropWhile pyWs (l.dropWhile pyWs) := rfl

theorem pyStripList_eq_nil_iff (l : List Char) :
    pyStripList l = [] ↔ ∀ c ∈ l, pyWs c := by
  rw [pyStripList_eq_rdropWhile, List.rdropWhile_eq_nil_iff]
  constructor
  · intro h c hc
    rw [← List.takeWhile_append_dropWhile (p := pyWs) (l := l), List.mem_append] at hc
    rcases hc with hc | hc
    · exact List.mem_takeWhile_imp hc
    · exact h c hc
  · intro h c hc
    exact h c ((List.dropWhile_sublist (p := pyWs) (l := l)).subset hc)

theorem pyStripList_idem (l : List Char) :
    pyStripList (pyStripList l) = pyStripList l := by
  rw [pyStripList_eq_rdropWhile, pyStripList_eq_rdropWhile]
  have hBA : List.rdropWhile pyWs (l.dropWhile pyWs) <+: l.dropWhile pyWs :=
    List.rdropWhile_prefix _ _
  have hdrop : (List.rdropWhile pyWs (l.dropWhile pyWs)).dropWhile pyWs
      = List.rdropWhile pyWs (l.dropWhile pyWs) := by
    rw [List.dropWhile_eq_self_iff]
    intro hl
    have hlt : 0 < (l.dropWhile pyWs).length := lt_of_lt_of_le hl hBA.length_le
    have hget := hBA.getElem (n := 0) hl
    have hnot := List.dropWhile_get_zero_not (p := pyWs) l hlt
    simpa [List.get_eq_getElem, ← hget] using hnot
  rw [hdrop]
  exact List.rdropWhile_idempotent _ _

theorem pyStrip_data (s : String) : (pyStrip s).data = pyStripList s.data := rfl

theorem pyStrip_eq_empty_iff (s : String) :
    pyStrip s = "" ↔ ∀ c ∈ s.data, pyWs c := by
  rw [← pyStripList_eq_nil_iff]
  constructor
  · intro h
    have := congrArg String.data h
    simpa [pyStrip_data] using this
  · intro h
    apply String.ext
    simpa [pyStrip_data] using h

theorem pyStrip_idem (s : String) : pyStrip (pyStrip s) = pyStrip s := by
  apply String.ext
  simp [pyStrip_data, pyStripList_idem]

/-! ### Lemmas about the scene split -/

theorem splitChars_ne_nil (l : List Char) : splitChars l ≠ [] := by
  induction l with
  | nil => simp [splitChars]
  | cons c rest ih =>
    rw [splitChars]
    split
    · simp
    · match h : splitChars rest with
      | [] => simp
      | f :: fs => simp

theorem mem_splitChars_subset (l frag : List Char) (hf : frag ∈ splitChars l) :
    ∀ c ∈ frag, c ∈ l := by
  induction l generalizing frag with
  | nil =>
    simp only [splitChars, List.mem_singleton] at hf
    subst hf
    simp
  | cons a rest ih =>
    rw [splitChars] at hf
    by_cases ha : isSplitDelim a
    · rw [if_pos ha] at hf
      rcases List.mem_cons.mp hf with h | h
      · subst h; simp
      · intro c hc
        exact List.mem_cons_of_mem a (ih frag h c hc)
    · rw [if_neg ha] at hf
      rcases hrec : splitChars rest with _ | ⟨f, fs⟩
      · exact absurd hrec (splitChars_ne_nil rest)
      · rw [hrec] at hf
        rcases List.mem_cons.mp hf with h | h
        · subst h
          intro c hc
          rcases List.mem_cons.mp hc with h2 | h2
          · subst h2; simp
          · have hfmem : f ∈ splitChars rest := by rw [hrec]; simp
            exact List.mem_cons_of_mem a (ih f hfmem c h2)
        · intro c hc
          have hmem : frag ∈ splitChars rest := by rw [hrec]; simp [h]
          exact List.mem_cons_of_mem a (ih frag hmem c hc)

theorem mem_storyFragments_blank (story : String)
    (hball : ∀ c ∈ story.data, pyWs c) :
    ∀ frag ∈ storyFragments story, pyStrip frag = "" := by
  intro frag hf
  rcases List.mem_map.mp hf with ⟨chars, hchars, hmk⟩
  rw [← hmk, pyStrip_eq_empty_iff]
  intro c hc
  exact hball c (mem_splitChars_subset _ _ hchars c hc)

/-! ### Claims C6 and C7: the scene splitter -/

/-- C6 (counterexample): the story consisting of six spaces and the
letter a passes the length filter, because the filter measures the
fragment before stripping; the returned scene has trimmed length 1,
refuting the claim that every returned scene is longer than 5
characters after trimming. -/
theorem sceneSplitStep_short_scene_counterexample :
    ¬ (∀ s ∈ sceneSplitStep "      a", 5 < (pyStrip s).length) := by
  decide

/-- C6 (amended): every scene kept by the split step is already
stripped, non-blank, and is the strip of a fragment whose raw
(unstripped) length exceeds 5; the length filter inspects the
fragment before stripping, so a kept scene itself may have 5 or
fewer characters. -/
theorem sceneSplitStep_kept_scene_origin (story s : String)
    (hs : s ∈ sceneSplitStep story) :
    pyStrip s = s ∧ s ≠ "" ∧
      ∃ frag, frag ∈ storyFragments story ∧ pyStrip frag = s ∧ frag.length > 5 := by
  rcases List.mem_filterMap.mp hs with ⟨frag, hfrag, hcond⟩
  by_cases h : pyStrip frag ≠ "" ∧ frag.length > 5
  · rw [if_pos h] at hcond
    have heq : pyStrip frag = s := Option.some.inj hcond
    refine ⟨?_, ?_, frag, hfrag, heq, h.2⟩
    · rw [← heq]
      exact pyStrip_idem frag
    · rw [← heq]
      exact h.1
  · rw [if_neg h] at hcond
    exact absurd hcond (Option.some_ne_none s).symm

/-- C6 witness: the amended theorem applied to the six-space story. -/
theorem sceneSplitStep_kept_scene_origin_witness :
    pyStrip "a" = "a" ∧ "a" ≠ "" ∧
      ∃ frag, frag ∈ storyFragments "      a" ∧ pyStrip frag = "a" ∧ frag.length > 5 :=
  sceneSplitStep_kept_scene_origin "      a" "a" (by decide)

/-- C7 (counterexample): for the story made of a space, the letters
ab and a space, the split step keeps nothing and the story is not
blank, yet the fallback scene is the raw story text, not the trimmed
text the claim requires. -/
theorem scenesOf_fallback_counterexample :
    sceneSplitStep " ab " = [] ∧ pyStrip " ab " ≠ "" ∧
      scenesOf " ab " = [" ab "] ∧ scenesOf " ab " ≠ [pyStrip " ab "] := by
  decide

/-- C7 (amended): a blank story yields no scenes; a non-blank story
yields at least one scene; and when the split step keeps nothing and
the story is non-blank, the output is a single fallback scene equal
to the entire raw (untrimmed) input text. -/
theorem scenesOf_fallback_spec (story : String) :
    (pyStrip story = "" → scenesOf story = []) ∧
    (pyStrip story ≠ "" → scenesOf story ≠ []) ∧
    (sceneSplitStep story = [] → pyStrip story ≠ "" → scenesOf story = [story]) := by
  refine ⟨?_, ?_, ?_⟩
  · intro hblank
    have hws : ∀ c ∈ story.data, pyWs c := (pyStrip_eq_empty_iff story).mp hblank
    have hstep : sceneSplitStep story = [] := by
      rw [sceneSplitStep, List.filterMap_eq_nil_iff]
      intro frag hfrag
      rw [if_neg]
      intro hcontra
      exact hcontra.1 (mem_storyFragments_blank story hws frag hfrag)
    rw [scenesOf, hstep]
    simp [hblank]
  · intro hne
    rw [scenesOf]
    by_cases hstep : (sceneSplitStep story).isEmpty
    · simp [hstep, hne]
    · simp only [hstep, if_false, Bool.false_eq_true]
      exact fun hcontra => hstep (by rw [hcontra]; rfl)
  · intro hstep hne
    rw [scenesOf, hstep]
    simp [hne]

/-- C7 witness: the amended theorem applied to a concrete story with
surrounding whitespace, showing the raw-text fallback. -/
theorem scenesOf_fallback_spec_witness : scenesOf " ab " = [" ab "] :=
  (scenesOf_fallback_spec " ab ").2.2 (by decide) (by decide)

/-! ### Lemmas about the image mapper -/

theorem bucketOf_cons (p : String) (files : List String) (k : Nat) :
    bucketOf (p :: files) k =
      if sceneKey p = some k then p :: bucketOf files k else bucketOf files k := by
  by_cases h : sceneKey p = some k
  · simp [bucketOf, List.filter_cons, h]
  · simp [bucketOf, List.filter_cons, h]

theorem lookupKey_cons (k2 : Nat) (vs : List String)
    (rest : List (Nat × List String)) (k : Nat) :
    lookupKey ((k2, vs) :: rest) k = if k2 = k then some vs else lookupKey rest k := by
  by_cases h : k2 = k
  · subst h
    simp [lookupKey, List.find?]
  · have hbeq : (k2 == k) = false := by simp [h]
    simp [lookupKey, List.find?, hbeq, h]

theorem lookupKey_addToMap_same (k : Nat) (v : String)
    (m : List (Nat × List String)) :
    lookupKey (addToMap k v m) k = some ((lookupKey m k).getD [] ++ [v]) := by
  induction m with
  | nil => simp [addToMap, lookupKey_cons, lookupKey]
  | cons e rest ih =>
    obtain ⟨k2, vs⟩ := e
    by_cases h : k = k2
    · subst h
      simp [addToMap, lookupKey_cons]
    · rw [addToMap, if_neg h, lookupKey_cons, if_neg (Ne.symm h),
        lookupKey_cons, if_neg (Ne.symm h)]
      exact ih

theorem lookupKey_addToMap_ne (k : Nat) (v : String)
    (m : List (Nat × List String)) (k2 : Nat) (h : k2 ≠ k) :
    lookupKey (addToMap k v m) k2 = lookupKey m k2 := by
  induction m with
  | nil => simp [addToMap, lookupKey_cons, Ne.symm h, lookupKey]
  | cons e rest ih =>
    obtain ⟨k3, vs⟩ := e
    by_cases hk : k = k3
    · subst hk
      rw [addToMap, if_pos rfl, lookupKey_cons, lookupKey_cons,
        if_neg (Ne.symm h), if_neg (Ne.symm h)]
    · rw [addToMap, if_neg hk, lookupKey_cons, lookupKey_cons]
      by_cases h3 : k3 = k2
      · simp [h3]
      · rw [if_neg h3, if_neg h3]
        exact ih

theorem buildMap_lookupKey (files : List String) :
    ∀ (acc : List (Nat × List String)) (k : Nat),
      lookupKey (buildMap files acc) k =
        match lookupKey acc k with
        | some vs => some (vs ++ bucketOf files k)
        | none => if bucketOf files k = [] then none else some (bucketOf files k) := by
  induction files with
  | nil =>
    intro acc k
    rw [buildMap]
    cases h : lookupKey acc k <;> simp [bucketOf]
  | cons p rest ih =>
    intro acc k
    rw [buildMap]
    cases hp : sceneKey p with
    | none =>
      rw [ih]
      have hb : bucketOf (p :: rest) k = bucketOf rest k := by
        rw [bucketOf_cons, if_neg]
        simp [hp]
      rw [hb]
    | some k0 =>
      by_cases hk : k = k0
      · subst hk
        rw [ih, lookupKey_addToMap_same]
        have hb : bucketOf (p :: rest) k = p :: bucketOf rest k := by
          rw [bucketOf_cons, if_pos hp]
        rw [hb]
        cases h : lookupKey acc k with
        | none => simp
        | some vs => simp
      · rw [ih, lookupKey_addToMap_ne _ _ _ _ hk]
        have hb : bucketOf (p :: rest) k = bucketOf rest k := by
          rw [bucketOf_cons, if_neg]
          rw [hp]
          simp
          exact fun hcontra => hk hcontra.symm
        rw [hb]

theorem mem_keys_addToMap (k : Nat) (v : String)
    (m : List (Nat × List String)) (a : Nat) :
    a ∈ (addToMap k v m).map Prod.fst ↔ a ∈ m.map Prod.fst ∨ a = k := by
  induction m with
  | nil => simp [addToMap]
  | cons e rest ih =>
    obtain ⟨k2, vs⟩ := e
    by_cases h : k = k2
    · subst h
      rw [addToMap, if_pos rfl]
      simp only [List.map_cons, List.mem_cons]
      tauto
    · rw [addToMap, if_neg h]
      simp only [List.map_cons, List.mem_cons, ih]
      tauto

theorem nodupKeys_addToMap (k : Nat) (v : String)
    (m : List (Nat × List String)) (h : (m.map Prod.fst).Nodup) :
    ((addToMap k v m).map Prod.fst).Nodup := by
  induction m with
  | nil => simp [addToMap]
  | cons e rest ih =>
    obtain ⟨k2, vs⟩ := e
    simp only [List.map_cons, List.nodup_cons] at h
    by_cases hk : k = k2
    · subst hk
      simpa [addToMap, List.nodup_cons] using h
    · simp only [addToMap, if_neg hk, List.map_cons, List.nodup_cons]
      refine ⟨?_, ih h.2⟩
      rw [mem_keys_addToMap]
      intro hc
      rcases hc with hc | hc
      · exact h.1 hc
      · exact hk hc.symm

theorem buildMap_nodupKeys (files : List String) :
    ∀ acc : List (Nat × List String), (acc.map Prod.fst).Nodup →
      ((buildMap files acc).map Prod.fst).Nodup := by
  induction files with
  | nil => intro acc h; rw [buildMap]; exact h
  | cons p rest ih =>
    intro acc h
    rw [buildMap]
    cases hp : sceneKey p with
    | none => exact ih acc h
    | some k => exact ih _ (nodupKeys_addToMap k p acc h)

theorem mem_iff_lookupKey (m : List (Nat × List String))
    (hnodup : (m.map Prod.fst).Nodup) (k : Nat) (vs : List String) :
    (k, vs) ∈ m ↔ lookupKey m k = some vs := by
  induction m with
  | nil => simp [lookupKey]
  | cons e rest ih =>
    obtain ⟨k2, vs2⟩ := e
    simp only [List.map_cons, List.nodup_cons] at hnodup
    rw [lookupKey_cons]
    by_cases h : k2 = k
    · subst h
      rw [if_pos rfl]
      simp only [List.mem_cons, Prod.mk.injEq, true_and]
      constructor
      · intro hc
        rcases hc with hc | hc
        · rw [hc]
        · exact absurd (List.mem_map_of_mem Prod.fst hc) hnodup.1
      · intro hc
        exact Or.inl (Option.some.inj hc).symm
    · rw [if_neg h]
      rw [List.mem_cons, ih hnodup.2]
      simp only [Prod.mk.injEq]
      constructor
      · intro hc
        rcases hc with hc | hc
        · exact absurd hc.1.symm h
        · exact hc
      · intro hc
        exact Or.inr hc

theorem map_images_nodupKeys (files : List String) :
    ((map_images_by_prompt_number files).map Prod.fst).Nodup := by
  have hperm : List.Perm (sortByKey (buildMap files [])) (buildMap files []) :=
    List.perm_insertionSort keyLE _
  have h0 : ((buildMap files []).map Prod.fst).Nodup :=
    buildMap_nodupKeys files [] (by simp)
  exact (h0.perm (hperm.map Prod.fst).symm)

theorem map_images_mem_iff (files : List String) (k : Nat) (vs : List String) :
    (k, vs) ∈ map_images_by_prompt_number files ↔
      vs = bucketOf files k ∧ vs ≠ [] := by
  have hperm : List.Perm (sortByKey (buildMap files [])) (buildMap files []) :=
    List.perm_insertionSort keyLE _
  have h0 : ((buildMap files []).map Prod.fst).Nodup :=
    buildMap_nodupKeys files [] (by simp)
  have hlook : lookupKey (buildMap files []) k =
      if bucketOf files k = [] then none else some (bucketOf files k) := by
    have h := buildMap_lookupKey files [] k
    exact h
  rw [map_images_by_prompt_number]
  rw [hperm.mem_iff]
  rw [mem_iff_lookupKey _ h0]
  rw [hlook]
  by_cases hb : bucketOf files k = []
  · rw [if_pos hb]
    constructor
    · intro h
      exact absurd h (by simp)
    · intro h
      exfalso
      apply h.2
      rw [h.1, hb]
  · rw [if_neg hb]
    constructor
    · intro h
      have heq := Option.some.inj h
      refine ⟨heq.symm, ?_⟩
      rw [← heq]
      exact hb
    · intro h
      rw [h.1]

theorem map_images_sorted_lt (files : List String) :
    (map_images_by_prompt_number files).Pairwise (fun a b => a.1 < b.1) := by
  have hsorted : (map_images_by_prompt_number files).Pairwise keyLE :=
    List.sorted_insertionSort keyLE _
  have hnodup := map_images_nodupKeys files
  rw [List.Nodup, List.pairwise_map] at hnodup
  refine (hsorted.and hnodup).imp ?_
  intro a b hab
  exact lt_of_le_of_ne hab.1 hab.2

theorem pairwise_lt_head_of_zero (l : List (Nat × List String)) (kv : Nat × List String)
    (hl : l.Pairwise (fun a b => a.1 < b.1)) (hmem : kv ∈ l) (hzero : kv.1 = 0) :
    l.head? = some kv := by
  cases l with
  | nil => exact absurd hmem (List.not_mem_nil kv)
  | cons x t =>
    rcases List.mem_cons.mp hmem with h | h
    · rw [h]
      rfl
    · exfalso
      have hx := (List.pairwise_cons.mp hl).1 kv h
      rw [hzero] at hx
      exact Nat.not_lt_zero x.1 hx

theorem mem_map_images_of_sceneKey (files : List String) (p : String) (k : Nat)
    (hp : p ∈ files) (hkey : sceneKey p = some k) :
    ∃ kv, kv ∈ map_images_by_prompt_number files ∧ kv.1 = k ∧ p ∈ kv.2 := by
  have hmem : p ∈ bucketOf files k := by
    rw [bucketOf]
    apply List.mem_filter.mpr
    exact ⟨hp, by simp [hkey]⟩
  refine ⟨(k, bucketOf files k), ?_, rfl, hmem⟩
  rw [map_images_mem_iff]
  exact ⟨rfl, List.ne_nil_of_mem hmem⟩

/-! ### Claims C5 and C10: the image mapper -/

/-- C5: the Mapper assigns every path whose filename has a leading
digit run parsing to n to scene ordinal the ceiling of n over 2,
returns keys sorted strictly ascending, and each bucket is exactly
the input-order filter of the paths carrying that ordinal, so paths
without a leading digit run land in no bucket (and the mapper never
fails, being a total function) while within-scene order is the input
order; on the four standard names it produces two scenes of two. -/
theorem map_images_by_prompt_number_spec (files : List String) :
    ((map_images_by_prompt_number files).Pairwise fun a b => a.1 < b.1) ∧
    (∀ kv ∈ map_images_by_prompt_number files,
        kv.2 = bucketOf files kv.1 ∧ kv.2 ≠ [] ∧
          ∀ p ∈ kv.2, sceneKey p = some kv.1) ∧
    (∀ p ∈ files, ∀ n, leadingNumber (pyBasename p) = some n →
        ∃ kv, kv ∈ map_images_by_prompt_number files ∧
          kv.1 = sceneOfNat n ∧ p ∈ kv.2) ∧
    map_images_by_prompt_number ["1_x.png", "2_x.png", "3_x.png", "4_x.png"]
      = [(1, ["1_x.png", "2_x.png"]), (2, ["3_x.png", "4_x.png"])] := by
  refine ⟨map_images_sorted_lt files, ?_, ?_, by decide⟩
  · intro kv hkv
    obtain ⟨k, vs⟩ := kv
    rw [map_images_mem_iff] at hkv
    refine ⟨hkv.1, hkv.2, ?_⟩
    intro p hp
    rw [hkv.1] at hp
    have hfilt := List.of_mem_filter hp
    simpa using hfilt
  · intro p hp n hn
    have hkey : sceneKey p = some (sceneOfNat n) := by
      rw [sceneKey, hn]
      rfl
    exact mem_map_images_of_sceneKey files p (sceneOfNat n) hp hkey

/-- C5 witness: the bucket characterization applied to the four
standard names at scene ordinal 1 shows the first bucket is the
input-order filter. -/
theorem map_images_by_prompt_number_spec_witness :
    ((1 : Nat), ["1_x.png", "2_x.png"]).2
      = bucketOf ["1_x.png", "2_x.png", "3_x.png", "4_x.png"] 1 :=
  ((map_images_by_prompt_number_spec
      ["1_x.png", "2_x.png", "3_x.png", "4_x.png"]).2.1
    (1, ["1_x.png", "2_x.png"]) (by decide)).1

/-- C10: an image whose leading digit run parses to 0 is placed under
scene ordinal 0, which is the head (least key) of the sorted map; and
with a non-empty caption list the caption guard passes for ordinal 0
with index -1, selecting the last caption through Python negative
indexing rather than the empty default. -/
theorem zero_numbered_image_spec :
    (∀ files p, p ∈ files → leadingNumber (pyBasename p) = some 0 →
        ∃ kv, kv ∈ map_images_by_prompt_number files ∧ kv.1 = 0 ∧ p ∈ kv.2 ∧
          (map_images_by_prompt_number files).head? = some kv) ∧
    (∀ (captions : List String) (c : String), captions.getLast? = some c →
        currentSceneText 0 captions = Except.ok c) := by
  constructor
  · intro files p hp hn
    have hkey : sceneKey p = some 0 := by
      rw [sceneKey, hn]
      rfl
    obtain ⟨kv, hmem, hk, hpmem⟩ := mem_map_images_of_sceneKey files p 0 hp hkey
    exact ⟨kv, hmem, hk, hpmem,
      pairwise_lt_head_of_zero _ kv (map_images_sorted_lt files) hmem hk⟩
  · intro captions c hc
    have hne : captions ≠ [] := by
      intro h
      rw [h] at hc
      simp at hc
    have hlen : 1 ≤ captions.length := List.length_pos.mpr hne
    rw [currentSceneText, if_pos (by push_cast; omega)]
    have hget : pyListGet captions (((0 : Nat) : Int) - 1) = some c := by
      rw [pyListGet, if_pos (by omega)]
      rw [if_neg (by push_cast; omega)]
      have hj : (((captions.length : Int)) + (((0 : Nat) : Int) - 1)).toNat
          = captions.length - 1 := by omega
      rw [hj]
      rw [List.get?_eq_getElem?]
      rw [List.getLast?_eq_getElem?] at hc
      exact hc
    rw [hget]

/-- C10 witness: with two captions, ordinal 0 receives the second
(last) caption text. -/
theorem zero_numbered_image_spec_witness :
    currentSceneText 0 ["s1", "s2"] = Except.ok "s2" :=
  zero_numbered_image_spec.2 ["s1", "s2"] "s2" (by decide)

/-! ### Lemmas about the segment plan of one scene -/

theorem renderSegments_fst_mem (renderOk : String → Bool) (job_id : String)
    (i prompt_num num_images : Nat) (dpi : ℚ) (caption : String) :
    ∀ (imgs : List String) (j0 : Nat) (s : SegmentSpec),
      s ∈ (renderSegments renderOk job_id i prompt_num num_images dpi caption imgs j0).1 →
      s.scene_index = i ∧ s.num_images = num_images ∧ s.duration = dpi ∧
        s.cmd_t = dpi ∧ s.effect_cycle = (i * num_images + s.image_index) % 3 ∧
        s.seg_path = segPathOf job_id i s.image_index := by
  intro imgs
  induction imgs with
  | nil =>
    intro j0 s hs
    simp [renderSegments] at hs
  | cons img rest ih =>
    intro j0 s hs
    simp only [renderSegments] at hs
    rcases List.mem_cons.mp hs with h | h
    · subst h
      exact ⟨rfl, rfl, rfl, rfl, rfl, rfl⟩
    · exact ih (j0 + 1) s h

theorem renderSegments_snd_eq (renderOk : String → Bool) (job_id : String)
    (i prompt_num num_images : Nat) (dpi : ℚ) (caption : String) :
    ∀ (imgs : List String) (j0 : Nat),
      (renderSegments renderOk job_id i prompt_num num_images dpi caption imgs j0).2 =
        ((renderSegments renderOk job_id i prompt_num num_images dpi caption imgs j0).1.filter
          fun s => renderOk s.seg_path).map fun s => s.seg_path := by
  intro imgs
  induction imgs with
  | nil =>
    intro j0
    simp [renderSegments]
  | cons img rest ih =>
    intro j0
    simp only [renderSegments]
    rw [List.filter_cons]
    by_cases h : renderOk (segPathOf job_id i j0)
    · simp only [h, if_pos]
      rw [List.map_cons]
      rw [ih (j0 + 1)]
    · simp only [h]
      rw [if_neg (by simp [h])]
      exact ih (j0 + 1)

theorem renderSegments_fst_indices (renderOk : String → Bool) (job_id : String)
    (i prompt_num num_images : Nat) (dpi : ℚ) (caption : String) :
    ∀ (imgs : List String) (j0 : Nat),
      ((renderSegments renderOk job_id i prompt_num num_images dpi caption imgs j0).1.map
        fun s => (s.scene_index, s.image_index)) =
        (List.range' j0 imgs.length).map fun j => (i, j) := by
  intro imgs
  induction imgs with
  | nil =>
    intro j0
    simp [renderSegments]
  | cons img rest ih =>
    intro j0
    simp only [renderSegments, List.map_cons, List.length_cons, List.range']
    rw [ih (j0 + 1)]

theorem chain_segOrder_range (i : Nat) :
    ∀ (n j0 : Nat), List.Chain' segOrder ((List.range' j0 n).map fun j => (i, j)) := by
  intro n
  induction n with
  | zero => intro j0; simp [List.range']
  | succ m ih =>
    intro j0
    rw [List.range', List.map_cons]
    apply List.Chain'.cons'
    · exact ih (j0 + 1)
    · intro y hy
      have hmem := List.mem_of_mem_head? hy
      rcases List.mem_map.mp hmem with ⟨j, hj, hjy⟩
      have hge : j0 + 1 ≤ j := (List.mem_range'_1.mp hj).1
      rw [← hjy]
      right
      exact ⟨rfl, by omega⟩

theorem renderSegments_fst_chain (renderOk : String → Bool) (job_id : String)
    (i prompt_num num_images : Nat) (dpi : ℚ) (caption : String)
    (imgs : List String) (j0 : Nat) :
    List.Chain' segOrder
      ((renderSegments renderOk job_id i prompt_num num_images dpi caption imgs j0).1.map
        fun s => (s.scene_index, s.image_index)) := by
  rw [renderSegments_fst_indices]
  exact chain_segOrder_range i imgs.length j0

/-! ### Lemmas about the scene loop -/

theorem currentSceneText_error_msg (pn : Nat) (captions : List String) (e : String)
    (h : currentSceneText pn captions = Except.error e) : e = indexErrorMsg := by
  rw [currentSceneText] at h
  split at h
  · cases hpl : pyListGet captions ((pn : Int) - 1) with
    | some s =>
      rw [hpl] at h
      exact Except.noConfusion h
    | none =>
      rw [hpl] at h
      injection h with h2
      exact h2.symm
  · exact Except.noConfusion h

theorem currentSceneText_ok_of_pos (pn : Nat) (captions : List String)
    (hpn : 1 ≤ pn) : ∃ t, currentSceneText pn captions = Except.ok t := by
  rw [currentSceneText]
  by_cases hg : ((pn : Int) - 1) < (captions.length : Int)
  · rw [if_pos hg]
    have hlt : pn - 1 < captions.length := by omega
    have hget : pyListGet captions ((pn : Int) - 1) = some (captions[pn - 1]) := by
      rw [pyListGet, if_neg (by omega)]
      rw [show ((pn : Int) - 1).toNat = pn - 1 by omega]
      rw [List.get?_eq_getElem? captions (pn - 1)]
      exact List.getElem?_eq_getElem hlt
    rw [hget]
    exact ⟨_, rfl⟩
  · rw [if_neg hg]
    exact ⟨"", rfl⟩

theorem processScenes_ok_facts (wrapFn : String → Nat → List String)
    (renderOk : String → Bool) (job_id : String) (captions : List String)
    (dpp : ℚ) :
    ∀ (entries : List (Nat × List String)) (i0 : Nat)
      (pr : List SegmentSpec × List String),
      processScenes wrapFn renderOk job_id captions dpp entries i0 = Except.ok pr →
      (∀ s ∈ pr.1,
          i0 ≤ s.scene_index ∧
          s.effect_cycle = (s.scene_index * s.num_images + s.image_index) % 3 ∧
          s.cmd_t = s.duration ∧
          s.duration = max (1/2 : ℚ) (dpp / (s.num_images : ℚ))) ∧
      pr.2 = (pr.1.filter fun s => renderOk s.seg_path).map (fun s => s.seg_path) ∧
      List.Chain' segOrder (pr.1.map fun s => (s.scene_index, s.image_index)) := by
  intro entries
  induction entries with
  | nil =>
    intro i0 pr h
    simp only [processScenes] at h
    injection h with h
    rw [← h]
    refine ⟨by simp, by simp, by simp⟩
  | cons e rest ih =>
    obtain ⟨pn, images⟩ := e
    intro i0 pr h
    simp only [processScenes] at h
    split at h
    · -- empty image list: the entry is skipped, the index advances
      obtain ⟨hmem, hpaths, hchain⟩ := ih (i0 + 1) pr h
      refine ⟨?_, hpaths, hchain⟩
      intro s hs
      obtain ⟨hle, hrest⟩ := hmem s hs
      exact ⟨by omega, hrest⟩
    · split at h
      · -- dead second guard (length zero with a non-empty list)
        obtain ⟨hmem, hpaths, hchain⟩ := ih (i0 + 1) pr h
        refine ⟨?_, hpaths, hchain⟩
        intro s hs
        obtain ⟨hle, hrest⟩ := hmem s hs
        exact ⟨by omega, hrest⟩
      · -- a real scene: caption selection, inner loop, recursion
        cases hc : currentSceneText pn captions with
        | error msg =>
          rw [hc] at h
          exact Except.noConfusion h
        | ok text =>
          rw [hc] at h
          cases hrec : processScenes wrapFn renderOk job_id captions dpp rest (i0 + 1) with
          | error msg =>
            rw [hrec] at h
            exact Except.noConfusion h
          | ok pr2 =>
            rw [hrec] at h
            injection h with h
            obtain ⟨hmem2, hpaths2, hchain2⟩ := ih (i0 + 1) pr2 hrec
            rw [← h]
            refine ⟨?_, ?_, ?_⟩
            · intro s hs
              rw [List.mem_append] at hs
              rcases hs with hs | hs
              · obtain ⟨h1, h2, h3, h4, h5, h6⟩ :=
                  renderSegments_fst_mem renderOk job_id i0 pn images.length
                    (max (1/2 : ℚ) (dpp / (images.length : ℚ)))
                    (buildCaption wrapFn text) images 0 s hs
                refine ⟨le_of_eq h1.symm, ?_, ?_, ?_⟩
                · rw [h5, h1, h2]
                · rw [h4, h3]
                · rw [h3, h2]
              · obtain ⟨hle, hrest⟩ := hmem2 s hs
                exact ⟨by omega, hrest⟩
            · rw [List.filter_append, List.map_append, hpaths2,
                renderSegments_snd_eq]
            · rw [List.map_append]
              apply List.Chain'.append
              · exact renderSegments_fst_chain renderOk job_id i0 pn images.length
                  (max (1/2 : ℚ) (dpp / (images.length : ℚ)))
                  (buildCaption wrapFn text) images 0
              · exact hchain2
              · intro x hx y hy
                have hxmem := List.mem_of_mem_getLast? hx
                have hymem := List.mem_of_mem_head? hy
                rcases List.mem_map.mp hxmem with ⟨sx, hsx, hx2⟩
                rcases List.mem_map.mp hymem with ⟨sy, hsy, hy2⟩
                obtain ⟨hx1, _, _, _, _, _⟩ :=
                  renderSegments_fst_mem renderOk job_id i0 pn images.length
                    (max (1/2 : ℚ) (dpp / (images.length : ℚ)))
                    (buildCaption wrapFn text) images 0 sx hsx
                obtain ⟨hyle, _⟩ := hmem2 sy hsy
                rw [← hx2, ← hy2]
                left
                simp only
                omega

theorem processScenes_error_msg (wrapFn : String → Nat → List String)
    (renderOk : String → Bool) (job_id : String) (captions : List String)
    (dpp : ℚ) :
    ∀ (entries : List (Nat × List String)) (i0 : Nat) (e : String),
      processScenes wrapFn renderOk job_id captions dpp entries i0 = Except.error e →
      e = indexErrorMsg := by
  intro entries
  induction entries with
  | nil =>
    intro i0 e h
    simp only [processScenes] at h
    exact Except.noConfusion h
  | cons ent rest ih =>
    obtain ⟨pn, images⟩ := ent
    intro i0 e h
    simp only [processScenes] at h
    split at h
    · exact ih (i0 + 1) e h
    · split at h
      · exact ih (i0 + 1) e h
      · cases hc : currentSceneText pn captions with
        | error msg =>
          rw [hc] at h
          injection h with h
          rw [← h]
          exact currentSceneText_error_msg pn captions msg hc
        | ok text =>
          rw [hc] at h
          cases hrec : processScenes wrapFn renderOk job_id captions dpp rest (i0 + 1) with
          | error msg =>
            rw [hrec] at h
            injection h with h
            rw [← h]
            exact ih (i0 + 1) msg hrec
          | ok pr2 =>
            rw [hrec] at h
            exact Except.noConfusion h

theorem processScenes_isOk (wrapFn : String → Nat → List String)
    (renderOk : String → Bool) (job_id : String) (captions : List String)
    (dpp : ℚ) :
    ∀ (entries : List (Nat × List String)) (i0 : Nat),
      (∀ kv ∈ entries, 1 ≤ kv.1) →
      ∃ pr, processScenes wrapFn renderOk job_id captions dpp entries i0 = Except.ok pr := by
  intro entries
  induction entries with
  | nil =>
    intro i0 hkeys
    exact ⟨([], []), rfl⟩
  | cons ent rest ih =>
    obtain ⟨pn, images⟩ := ent
    intro i0 hkeys
    have hpn : 1 ≤ pn := hkeys (pn, images) (List.mem_cons_self _ _)
    have hrest : ∀ kv ∈ rest, 1 ≤ kv.1 :=
      fun kv hkv => hkeys kv (List.mem_cons_of_mem _ hkv)
    obtain ⟨pr2, hpr2⟩ := ih (i0 + 1) hrest
    by_cases he : images.isEmpty = true
    · refine ⟨pr2, ?_⟩
      simp only [processScenes]
      rw [if_pos he]
      exact hpr2
    · by_cases hlen : images.length = 0
      · refine ⟨pr2, ?_⟩
        simp only [processScenes]
        rw [if_neg he, if_pos hlen]
        exact hpr2
      · obtain ⟨t, ht⟩ := currentSceneText_ok_of_pos pn captions hpn
        refine ⟨((renderSegments renderOk job_id i0 pn images.length
            (max (1/2 : ℚ) (dpp / (images.length : ℚ)))
            (buildCaption wrapFn t) images 0).1 ++ pr2.1,
          (renderSegments renderOk job_id i0 pn images.length
            (max (1/2 : ℚ) (dpp / (images.length : ℚ)))
            (buildCaption wrapFn t) images 0).2 ++ pr2.2), ?_⟩
        simp only [processScenes]
        rw [if_neg he, if_neg hlen, ht, hpr2]

/-! ### Lemmas about the whole job -/

theorem create_ok_inversion (wrapFn : String → Nat → List String)
    (renderOk : String → Bool) (concatOk muxOk : Bool)
    (m : List (Nat × List String)) (voice : ℚ) (job_id : String)
    (target : Option ℚ) (captions : List String) (r : JobResult)
    (h : create_video_from_prompts wrapFn renderOk concatOk muxOk m voice job_id
        target captions = Except.ok r) :
    resolveTotalDuration target voice ≠ 0 ∧ m.length ≠ 0 ∧
      ∃ pr, processScenes wrapFn renderOk job_id captions
          (resolveTotalDuration target voice / (m.length : ℚ)) (sortByKey m) 0
          = Except.ok pr ∧
        r.specs = pr.1 ∧ r.manifest = pr.2 ∧
        r.manifest_lines = pr.2.map manifestLine := by
  simp only [create_video_from_prompts] at h
  split at h
  · exact Except.noConfusion h
  next h0 =>
    split at h
    · exact Except.noConfusion h
    next h1 =>
      split at h
      · exact Except.noConfusion h
      next pr hpr =>
        split at h
        · exact Except.noConfusion h
        · split at h
          · exact Except.noConfusion h
          · injection h with h
            refine ⟨h0, h1, pr, hpr, ?_, ?_, ?_⟩
            · rw [← h]
            · rw [← h]
            · rw [← h]

theorem create_completes (wrapFn : String → Nat → List String)
    (renderOk : String → Bool) (m : List (Nat × List String)) (voice : ℚ)
    (job_id : String) (target : Option ℚ) (captions : List String)
    (h0 : resolveTotalDuration target voice ≠ 0) (h1 : m.length ≠ 0)
    (hkeys : ∀ kv ∈ m, 1 ≤ kv.1) :
    ∃ r, create_video_from_prompts wrapFn renderOk true true m voice job_id
        target captions = Except.ok r := by
  have hkeys2 : ∀ kv ∈ sortByKey m, 1 ≤ kv.1 := by
    intro kv hkv
    exact hkeys kv ((List.perm_insertionSort keyLE m).mem_iff.mp hkv)
  obtain ⟨pr, hpr⟩ := processScenes_isOk wrapFn renderOk job_id captions
    (resolveTotalDuration target voice / (m.length : ℚ)) (sortByKey m) 0 hkeys2
  refine ⟨{ specs := pr.1
            manifest := pr.2
            manifest_lines := pr.2.map manifestLine
            final_output_path := OUTPUT_DIR ++ "/final_video_" ++ job_id ++ ".mp4" }, ?_⟩
  simp only [create_video_from_prompts]
  rw [if_neg h0, if_neg h1, hpr]
  simp

/-! ### Claims C1 and C3: effect variants and duration allocation -/

/-- C1 (counterexample): with one scene of one image followed by one
scene of two images, the three images occupy cumulative positions 0,
1, 2, yet their effect variants are 0, 2, 0 rather than the claimed
0, 1, 2; the variant is not a function of the cumulative position. -/
theorem effect_cycle_counterexample :
    ((specsOf (create_video_from_prompts wrapOne allOk true true
        [(1, ["a"]), (2, ["b", "c"])] 0 "J" (some 1) [])).map
      fun s => s.effect_cycle) = [0, 2, 0] ∧
    [0, 2, 0] ≠ (List.range 3).map (fun g => g % 3) := by
  with_unfolding_all decide

/-- C1 (amended): the effect variant of every rendered segment equals
(i * k + j) mod 3, where i is the zero-based index of the segment
scene in ascending key order, k the number of images of that scene,
and j the zero-based position within the scene.  This coincides with
the cumulative position mod 3 only when all scenes hold the same
number of images (as in the standard two-per-scene layout), not in
general. -/
theorem effect_cycle_formula (wrapFn : String → Nat → List String)
    (renderOk : String → Bool) (concatOk muxOk : Bool)
    (m : List (Nat × List String)) (voice : ℚ) (job_id : String)
    (target : Option ℚ) (captions : List String) :
    ∀ s ∈ specsOf (create_video_from_prompts wrapFn renderOk concatOk muxOk m
        voice job_id target captions),
      s.effect_cycle = (s.scene_index * s.num_images + s.image_index) % 3 := by
  intro s hs
  cases hx : create_video_from_prompts wrapFn renderOk concatOk muxOk m voice
      job_id target captions with
  | error e =>
    rw [hx] at hs
    simp [specsOf] at hs
  | ok r =>
    rw [hx] at hs
    obtain ⟨-, -, pr, hpr, hspecs, -, -⟩ :=
      create_ok_inversion wrapFn renderOk concatOk muxOk m voice job_id target
        captions r hx
    simp only [specsOf] at hs
    rw [hspecs] at hs
    obtain ⟨hmem, -, -⟩ := processScenes_ok_facts wrapFn renderOk job_id captions
      (resolveTotalDuration target voice / (m.length : ℚ)) (sortByKey m) 0 pr hpr
    exact (hmem s hs).2.1

/-- C1 witness: the amended formula applied to the middle image of
the uneven two-scene job. -/
theorem effect_cycle_formula_witness :
    ((specsOf (create_video_from_prompts wrapOne allOk true true
        [(1, ["a"]), (2, ["b", "c"])] 0 "K" (some 1) [])).getD 1 dfltSpec).effect_cycle
      = (((specsOf (create_video_from_prompts wrapOne allOk true true
        [(1, ["a"]), (2, ["b", "c"])] 0 "K" (some 1) [])).getD 1 dfltSpec).scene_index
          * ((specsOf (create_video_from_prompts wrapOne allOk true true
        [(1, ["a"]), (2, ["b", "c"])] 0 "K" (some 1) [])).getD 1 dfltSpec).num_images
          + ((specsOf (create_video_from_prompts wrapOne allOk true true
        [(1, ["a"]), (2, ["b", "c"])] 0 "K" (some 1) [])).getD 1 dfltSpec).image_index) % 3 :=
  effect_cycle_formula wrapOne allOk true true [(1, ["a"]), (2, ["b", "c"])] 0 "K"
    (some 1) [] _ (by with_unfolding_all decide)

/-- C3: every planned segment of a scene holding k images is
allocated duration max(0.5, (T / S) / k), where T is the resolved
total duration and S the number of scenes present in the map. -/
theorem duration_allocation_spec (wrapFn : String → Nat → List String)
    (renderOk : String → Bool) (concatOk muxOk : Bool)
    (m : List (Nat × List String)) (voice : ℚ) (job_id : String)
    (target : Option ℚ) (captions : List String) :
    ∀ s ∈ specsOf (create_video_from_prompts wrapFn renderOk concatOk muxOk m
        voice job_id target captions),
      s.duration = max (1/2 : ℚ)
        (resolveTotalDuration target voice / (m.length : ℚ) / (s.num_images : ℚ)) := by
  intro s hs
  cases hx : create_video_from_prompts wrapFn renderOk concatOk muxOk m voice
      job_id target captions with
  | error e =>
    rw [hx] at hs
    simp [specsOf] at hs
  | ok r =>
    rw [hx] at hs
    obtain ⟨-, -, pr, hpr, hspecs, -, -⟩ :=
      create_ok_inversion wrapFn renderOk concatOk muxOk m voice job_id target
        captions r hx
    simp only [specsOf] at hs
    rw [hspecs] at hs
    obtain ⟨hmem, -, -⟩ := processScenes_ok_facts wrapFn renderOk job_id captions
      (resolveTotalDuration target voice / (m.length : ℚ)) (sortByKey m) 0 pr hpr
    exact (hmem s hs).2.2.2

set_option maxRecDepth 100000 in
/-- C3 witness: a 60 second job over three one-image scenes allocates
20 seconds to the first segment, and a 0.2 second job over one
one-image scene is floored to 0.5 seconds. -/
theorem duration_allocation_spec_witness :
    ((specsOf (create_video_from_prompts wrapOne allOk true true
        [(1, ["a"]), (2, ["b"]), (3, ["c"])] 0 "T" (some 1) [])).getD 0 dfltSpec).duration
      = 20 ∧
    ((specsOf (create_video_from_prompts wrapOne allOk true true
        [(1, ["a"])] 0 "U" (some (1/300)) [])).getD 0 dfltSpec).duration = 1/2 := by
  constructor
  · have h := duration_allocation_spec wrapOne allOk true true
      [(1, ["a"]), (2, ["b"]), (3, ["c"])] 0 "T" (some 1) []
      ((specsOf (create_video_from_prompts wrapOne allOk true true
        [(1, ["a"]), (2, ["b"]), (3, ["c"])] 0 "T" (some 1) [])).getD 0 dfltSpec)
      (by with_unfolding_all decide)
    rw [h]
    with_unfolding_all decide
  · have h := duration_allocation_spec wrapOne allOk true true
      [(1, ["a"])] 0 "U" (some (1/300)) []
      ((specsOf (create_video_from_prompts wrapOne allOk true true
        [(1, ["a"])] 0 "U" (some (1/300)) [])).getD 0 dfltSpec)
      (by with_unfolding_all decide)
    rw [h]
    with_unfolding_all decide

theorem create_error_inversion (wrapFn : String → Nat → List String)
    (renderOk : String → Bool) (concatOk muxOk : Bool)
    (m : List (Nat × List String)) (voice : ℚ) (job_id : String)
    (target : Option ℚ) (captions : List String) (e : String)
    (h : create_video_from_prompts wrapFn renderOk concatOk muxOk m voice job_id
        target captions = Except.error e) :
    (e = zeroDurationMsg ∧ resolveTotalDuration target voice = 0) ∨
    (e = noPromptsMsg ∧ resolveTotalDuration target voice ≠ 0 ∧ m.length = 0) ∨
    ((resolveTotalDuration target voice ≠ 0 ∧ m.length ≠ 0) ∧
      (e = indexErrorMsg ∨ e = concatErrorMsg ∨ e = muxErrorMsg)) := by
  simp only [create_video_from_prompts] at h
  split at h
  next h0 =>
    injection h with h
    exact Or.inl ⟨h.symm, h0⟩
  next h0 =>
    split at h
    next h1 =>
      injection h with h
      exact Or.inr (Or.inl ⟨h.symm, h0, h1⟩)
    next h1 =>
      split at h
      next e2 hp =>
        injection h with h
        have hmsg := processScenes_error_msg wrapFn renderOk job_id captions
          (resolveTotalDuration target voice / (m.length : ℚ)) (sortByKey m) 0 e2 hp
        refine Or.inr (Or.inr ⟨⟨h0, h1⟩, Or.inl ?_⟩)
        rw [← h, hmsg]
      next pr hp =>
        split at h
        · injection h with h
          exact Or.inr (Or.inr ⟨⟨h0, h1⟩, Or.inr (Or.inl h.symm)⟩)
        · split at h
          · injection h with h
            exact Or.inr (Or.inr ⟨⟨h0, h1⟩, Or.inr (Or.inr h.symm)⟩)
          · exact Except.noConfusion h

/-! ### Claims C2 and C4: manifest construction and preconditions -/

/-- C2: the manifest lists exactly the segments whose render
succeeded, as paths in plan order (the plan itself being ordered by
ascending scene index and within-scene input position); the manifest
file carries one quoted path per line; and when the concatenation and
mux oracles succeed, a job with a usable duration and a non-empty map
of positive scene ordinals completes no matter which per-segment
renders fail. -/
theorem manifest_spec (wrapFn : String → Nat → List String)
    (renderOk : String → Bool) (concatOk muxOk : Bool)
    (m : List (Nat × List String)) (voice : ℚ) (job_id : String)
    (target : Option ℚ) (captions : List String) :
    manifestOf (create_video_from_prompts wrapFn renderOk concatOk muxOk m voice
        job_id target captions)
      = ((specsOf (create_video_from_prompts wrapFn renderOk concatOk muxOk m voice
          job_id target captions)).filter fun s => renderOk s.seg_path).map
        (fun s => s.seg_path) ∧
    manifestLinesOf (create_video_from_prompts wrapFn renderOk concatOk muxOk m voice
        job_id target captions)
      = (manifestOf (create_video_from_prompts wrapFn renderOk concatOk muxOk m voice
          job_id target captions)).map manifestLine ∧
    List.Chain' segOrder
      ((specsOf (create_video_from_prompts wrapFn renderOk concatOk muxOk m voice
          job_id target captions)).map fun s => (s.scene_index, s.image_index)) ∧
    (concatOk = true → muxOk = true → resolveTotalDuration target voice ≠ 0 →
      m.length ≠ 0 → (∀ kv ∈ m, 1 ≤ kv.1) →
      jobCompleted (create_video_from_prompts wrapFn renderOk concatOk muxOk m voice
        job_id target captions) = true) := by
  cases hx : create_video_from_prompts wrapFn renderOk concatOk muxOk m voice
      job_id target captions with
  | error e =>
    refine ⟨by simp [manifestOf, specsOf], by simp [manifestLinesOf, manifestOf],
      by simp [specsOf], ?_⟩
    intro hc hm h0 h1 hkeys
    subst hc
    subst hm
    obtain ⟨r, hr⟩ := create_completes wrapFn renderOk m voice job_id target
      captions h0 h1 hkeys
    rw [hr] at hx
    exact Except.noConfusion hx
  | ok r =>
    obtain ⟨-, -, pr, hpr, hspecs, hman, hlines⟩ :=
      create_ok_inversion wrapFn renderOk concatOk muxOk m voice job_id target
        captions r hx
    obtain ⟨-, hpaths, hchain⟩ := processScenes_ok_facts wrapFn renderOk job_id
      captions (resolveTotalDuration target voice / (m.length : ℚ))
      (sortByKey m) 0 pr hpr
    refine ⟨?_, ?_, ?_, fun _ _ _ _ _ => rfl⟩
    · simp only [manifestOf, specsOf]
      rw [hman, hspecs, hpaths]
    · simp only [manifestLinesOf, manifestOf]
      rw [hlines, hman]
    · simp only [specsOf]
      rw [hspecs]
      exact hchain

set_option maxRecDepth 200000 in
/-- C2 witness: a six-segment job in which exactly the render of the
second scene first image fails produces a five-entry manifest in plan
order and still completes. -/
theorem manifest_spec_witness :
    manifestOf (create_video_from_prompts wrapOne
        (fun p => !(p == segPathOf "J" 1 0)) true true
        [(1, ["a", "b"]), (2, ["c", "d"]), (3, ["e", "f"])] 0 "J" (some 1)
        ["s1", "s2", "s3"])
      = [segPathOf "J" 0 0, segPathOf "J" 0 1, segPathOf "J" 1 1,
          segPathOf "J" 2 0, segPathOf "J" 2 1] ∧
    (manifestOf (create_video_from_prompts wrapOne
        (fun p => !(p == segPathOf "J" 1 0)) true true
        [(1, ["a", "b"]), (2, ["c", "d"]), (3, ["e", "f"])] 0 "J" (some 1)
        ["s1", "s2", "s3"])).length = 5 ∧
    jobCompleted (create_video_from_prompts wrapOne
        (fun p => !(p == segPathOf "J" 1 0)) true true
        [(1, ["a", "b"]), (2, ["c", "d"]), (3, ["e", "f"])] 0 "J" (some 1)
        ["s1", "s2", "s3"]) = true := by
  have h := manifest_spec wrapOne (fun p => !(p == segPathOf "J" 1 0)) true true
    [(1, ["a", "b"]), (2, ["c", "d"]), (3, ["e", "f"])] 0 "J" (some 1)
    ["s1", "s2", "s3"]
  have h1 : manifestOf (create_video_from_prompts wrapOne
      (fun p => !(p == segPathOf "J" 1 0)) true true
      [(1, ["a", "b"]), (2, ["c", "d"]), (3, ["e", "f"])] 0 "J" (some 1)
      ["s1", "s2", "s3"])
      = [segPathOf "J" 0 0, segPathOf "J" 0 1, segPathOf "J" 1 1,
          segPathOf "J" 2 0, segPathOf "J" 2 1] := by
    rw [h.1]
    with_unfolding_all decide
  refine ⟨h1, ?_, h.2.2.2 rfl rfl (by with_unfolding_all decide) (by decide)
    (by decide)⟩
  rw [h1]
  rfl

/-- C4 (counterexample): a map holding one scene whose image list is
empty has zero scenes with images, yet the operation does not raise
the nothing-to-render failure: with a usable duration it runs to
completion, rendering nothing. -/
theorem precondition_check_counterexample :
    jobCompleted (create_video_from_prompts wrapOne allOk true true
        [(1, [])] 0 "C4" (some 1) []) = true ∧
    (∀ kv ∈ ([((1 : Nat), ([] : List String))] : List (Nat × List String)),
      kv.2 = []) := by
  with_unfolding_all decide

/-- C4 (amended): the zero-duration failure is raised exactly when
the resolved total duration is zero; otherwise the nothing-to-render
failure is raised exactly when the map has zero scene entries, where
entries with empty image lists still count as present; with a
non-zero duration and a non-empty map, neither precondition failure
is raised. -/
theorem precondition_check_spec (wrapFn : String → Nat → List String)
    (renderOk : String → Bool) (concatOk muxOk : Bool)
    (m : List (Nat × List String)) (voice : ℚ) (job_id : String)
    (target : Option ℚ) (captions : List String) :
    (resolveTotalDuration target voice = 0 →
      create_video_from_prompts wrapFn renderOk concatOk muxOk m voice job_id
        target captions = Except.error zeroDurationMsg) ∧
    (resolveTotalDuration target voice ≠ 0 → m.length = 0 →
      create_video_from_prompts wrapFn renderOk concatOk muxOk m voice job_id
        target captions = Except.error noPromptsMsg) ∧
    (resolveTotalDuration target voice ≠ 0 → m.length ≠ 0 →
      create_video_from_prompts wrapFn renderOk concatOk muxOk m voice job_id
          target captions ≠ Except.error zeroDurationMsg ∧
      create_video_from_prompts wrapFn renderOk concatOk muxOk m voice job_id
          target captions ≠ Except.error noPromptsMsg) := by
  refine ⟨?_, ?_, ?_⟩
  · intro h0
    simp only [create_video_from_prompts]
    rw [if_pos h0]
  · intro h0 h1
    simp only [create_video_from_prompts]
    rw [if_neg h0, if_pos h1]
  · intro h0 h1
    constructor
    · intro hc
      rcases create_error_inversion wrapFn renderOk concatOk muxOk m voice job_id
          target captions zeroDurationMsg hc with h | h | h
      · exact h0 h.2
      · exact absurd h.1 (by decide)
      · rcases h.2 with h2 | h2 | h2 <;> exact absurd h2 (by decide)
    · intro hc
      rcases create_error_inversion wrapFn renderOk concatOk muxOk m voice job_id
          target captions noPromptsMsg hc with h | h | h
      · exact absurd h.1 (by decide)
      · exact h1 h.2.2
      · rcases h.2 with h2 | h2 | h2 <;> exact absurd h2 (by decide)

/-- C4 witness: the amended theorem applied to a truly empty map with
a one-minute target duration. -/
theorem precondition_check_spec_witness :
    create_video_from_prompts wrapOne allOk true true [] 0 "W4" (some 1) []
      = Except.error noPromptsMsg :=
  (precondition_check_spec wrapOne allOk true true [] 0 "W4" (some 1) []).2.1
    (by with_unfolding_all decide) rfl

/-! ### Claims C8 and C9: captions and duration drift -/

/-- C8: when the scene ordinal p exceeds the caption count, the scene
text is empty and the caption is empty (no failure, given that the
external wrapper returns no line on empty input); when 1 le p le
count, the caption is the p-th caption entry passed through the width
40 word wrap, joined with newlines, with every single quote and every
colon escaped. -/
theorem caption_selection_spec (wrapFn : String → Nat → List String)
    (p : Nat) (c : List String) :
    (c.length < p →
      currentSceneText p c = Except.ok "" ∧
        (wrapFn "" 40 = [] → captionOf wrapFn p c = Except.ok "")) ∧
    (1 ≤ p → p ≤ c.length →
      captionOf wrapFn p c = Except.ok (escapeCaption
        (String.intercalate "\n" (wrapFn (c.getD (p - 1) "") 40)))) := by
  constructor
  · intro hp
    have hguard : ¬ ((p : Int) - 1 < (c.length : Int)) := by omega
    have h1 : currentSceneText p c = Except.ok "" := by
      rw [currentSceneText, if_neg hguard]
    refine ⟨h1, ?_⟩
    intro hw
    rw [captionOf, h1]
    show Except.ok (buildCaption wrapFn "") = Except.ok ""
    rw [buildCaption, hw]
    rfl
  · intro hp1 hp2
    have hguard : ((p : Int) - 1 < (c.length : Int)) := by omega
    have hlt : p - 1 < c.length := by omega
    have hget : pyListGet c ((p : Int) - 1) = some (c.getD (p - 1) "") := by
      rw [pyListGet, if_neg (by omega)]
      rw [show ((p : Int) - 1).toNat = p - 1 by omega]
      rw [List.get?_eq_getElem? c (p - 1), List.getElem?_eq_getElem hlt,
        List.getD_eq_getElem c "" hlt]
    have h1 : currentSceneText p c = Except.ok (c.getD (p - 1) "") := by
      rw [currentSceneText, if_pos hguard, hget]
    rw [captionOf, h1]
    rfl

/-- C8 witness: scene 1 with the single caption holding a colon is
escaped for the overlay syntax. -/
theorem caption_selection_spec_witness :
    captionOf wrapOne 1 ["a:b"]
      = Except.ok (String.mk ['a', '\\', ':', 'b']) := by
  have h := (caption_selection_spec wrapOne 1 ["a:b"]).2 (by decide) (by decide)
  rw [h]
  decide

/-- C9: there is a positive total duration and a non-empty map whose
allocated durations sum to more than the total (one second across one
scene of three images allocates three times the 0.5 floor), and no
later step renormalizes the drift: the duration passed to every
render invocation is exactly the allocated duration. -/
theorem duration_drift_spec :
    (resolveTotalDuration (some (1/60)) 0 > 0 ∧
      ([((1 : Nat), ["a", "b", "c"])] : List (Nat × List String)) ≠ [] ∧
      ((specsOf (create_video_from_prompts wrapOne allOk true true
          [(1, ["a", "b", "c"])] 0 "JD" (some (1/60)) [])).map
        fun s => s.duration).sum > resolveTotalDuration (some (1/60)) 0) ∧
    (∀ (wrapFn : String → Nat → List String) (renderOk : String → Bool)
      (concatOk muxOk : Bool) (m : List (Nat × List String)) (voice : ℚ)
      (job_id : String) (target : Option ℚ) (captions : List String),
      ∀ s ∈ specsOf (create_video_from_prompts wrapFn renderOk concatOk muxOk m
          voice job_id target captions), s.cmd_t = s.duration) := by
  constructor
  · refine ⟨by with_unfolding_all decide, by decide, ?_⟩
    with_unfolding_all decide
  · intro wrapFn renderOk concatOk muxOk m voice job_id target captions s hs
    cases hx : create_video_from_prompts wrapFn renderOk concatOk muxOk m voice
        job_id target captions with
    | error e =>
      rw [hx] at hs
      simp [specsOf] at hs
    | ok r =>
      rw [hx] at hs
      obtain ⟨-, -, pr, hpr, hspecs, -, -⟩ :=
        create_ok_inversion wrapFn renderOk concatOk muxOk m voice job_id target
          captions r hx
      simp only [specsOf] at hs
      rw [hspecs] at hs
      obtain ⟨hmem, -, -⟩ := processScenes_ok_facts wrapFn renderOk job_id
        captions (resolveTotalDuration target voice / (m.length : ℚ))
        (sortByKey m) 0 pr hpr
      exact (hmem s hs).2.2.1

set_option maxRecDepth 200000 in
/-- C9 witness: the no-renormalization part applied to the first
segment of the drifting job. -/
theorem duration_drift_spec_witness :
    ((specsOf (create_video_from_prompts wrapOne allOk true true
        [(1, ["a", "b", "c"])] 0 "JW" (some (1/60)) [])).getD 0 dfltSpec).cmd_t
      = ((specsOf (create_video_from_prompts wrapOne allOk true true
        [(1, ["a", "b", "c"])] 0 "JW" (some (1/60)) [])).getD 0 dfltSpec).duration :=
  duration_drift_spec.2 wrapOne allOk true true [(1, ["a", "b", "c"])] 0 "JW"
    (some (1/60)) []
    ((specsOf (create_video_from_prompts wrapOne allOk true true
      [(1, ["a", "b", "c"])] 0 "JW" (some (1/60)) [])).getD 0 dfltSpec)
    (by with_unfolding_all decide)

end Storypilot
